import Mathlib

/-!
Shallow embedding of the SimplerEnv octo inference adapters
(`real2sim/octo/octo_model.py`, the local adapter `OctoInference`, and
`real2sim/octo/octo_server_model.py`, the remote adapter
`OctoServerInference`) together with proofs about the spec's claims.

Python float values are modelled as exact rationals; numpy 1-vectors for the
gripper channel are modelled as a single rational.
-/

/-! ## Sticky gripper state machine (`octo_server_model.py`, lines 88-91, 105-111, 168-189) -/

/-- Mutable gripper-filter fields of `OctoServerInference`
(`sticky_action_is_on`, `gripper_action_repeat`, `sticky_gripper_action`,
`previous_gripper_action`), as set in `__init__` / `reset` and mutated in
`step` under the `google_robot` policy. -/
structure GripperState where
  sticky_action_is_on : Bool
  gripper_action_repeat : ℕ
  sticky_gripper_action : ℚ
  previous_gripper_action : Option ℚ
deriving DecidableEq, Repr

/-- State set by `OctoServerInference.__init__` (lines 88-91) and restored by
`reset` (lines 108-111). -/
def initGripperState : GripperState :=
  { sticky_action_is_on := false
    gripper_action_repeat := 0
    sticky_gripper_action := 0
    previous_gripper_action := none }

/-- Lines 170-173: `relative_gripper_action` is 0 on the first step
(`previous_gripper_action is None`), otherwise previous minus current. -/
def relativeOf (s : GripperState) (current : ℚ) : ℚ :=
  match s.previous_gripper_action with
  | none => 0
  | some prev => prev - current

/-- The gripper block of `OctoServerInference.step` under the `google_robot`
policy (lines 168-189): compute the relative action, update
`previous_gripper_action`, possibly latch a sticky action when
`|relative| > 0.5` and not already sticky, emit the sticky action while
sticky (incrementing `gripper_action_repeat`), and clear the sticky state
once `gripper_action_repeat` equals `numRepeat`
(`sticky_gripper_num_repeat`).  Returns the successor state and the emitted
`action['gripper']` value. -/
def gripperStep (numRepeat : ℕ) (s : GripperState) (current : ℚ) : GripperState × ℚ :=
  let rel := relativeOf s current
  let s1 : GripperState := { s with previous_gripper_action := some current }
  let s2 : GripperState :=
    if (1 : ℚ)/2 < |rel| ∧ s1.sticky_action_is_on = false then
      { s1 with sticky_action_is_on := true, sticky_gripper_action := rel }
    else s1
  let s3 : GripperState :=
    if s2.sticky_action_is_on = true then
      { s2 with gripper_action_repeat := s2.gripper_action_repeat + 1 }
    else s2
  let out : ℚ := if s2.sticky_action_is_on = true then s2.sticky_gripper_action else rel
  let s4 : GripperState :=
    if s3.gripper_action_repeat = numRepeat then
      { s3 with sticky_action_is_on := false, gripper_action_repeat := 0, sticky_gripper_action := 0 }
    else s3
  (s4, out)

/-- State of the gripper filter before step `n`, when the raw
`open_gripper` value fed to step `k` is `f k` and the adapter started from a
fresh construction or `reset`. -/
def gripperStateAt (numRepeat : ℕ) (f : ℕ → ℚ) : ℕ → GripperState
  | 0 => initGripperState
  | n + 1 => (gripperStep numRepeat (gripperStateAt numRepeat f n) (f n)).1

/-- The `action['gripper']` value emitted at step `n` on the input stream `f`. -/
def gripperOutputAt (numRepeat : ℕ) (f : ℕ → ℚ) (n : ℕ) : ℚ :=
  (gripperStep numRepeat (gripperStateAt numRepeat f n) (f n)).2

/-- Input stream realising one trigger: raw gripper value 1 at step 0, then
constantly 2/5, so the relative action is 0 at step 0, 3/5 (magnitude 0.6,
above the 0.5 threshold) at step 1, and 0 at every later step. -/
def singleTriggerInput : ℕ → ℚ :=
  fun n => if n = 0 then 1 else 2/5

/-- Input stream realising two trigger events 5 steps apart: the relative
action is 3/5 at step 1, 0 at steps 2-5, 7/10 at step 6 (a second
above-threshold event while the filter is still sticky), and 0 afterwards. -/
def doubleTriggerInput : ℕ → ℚ :=
  fun n => if n = 0 then 1 else if n < 6 then 2/5 else -(3/10)

/-- Invariant claimed for the reachable states of the remote `google_robot`
adapter (where `sticky_gripper_num_repeat = 15`): when not sticky the repeat
counter and held action are zero; when sticky the repeat counter lies in
`[1, 14]` and the held action has magnitude above 0.5. -/
def gripperInvariantHolds (s : GripperState) : Bool :=
  if s.sticky_action_is_on then
    decide (1 ≤ s.gripper_action_repeat) &&
      decide (s.gripper_action_repeat ≤ 14) &&
      decide ((1 : ℚ)/2 < |s.sticky_gripper_action|)
  else
    (s.gripper_action_repeat == 0) && (s.sticky_gripper_action == 0)

/-! ## Adapter mutable core state and the public call sequence (reset / step) -/

/-- A call made on the remote adapter between construction and teardown:
either `reset(task_description)` (lines 105-113; the task string does not
touch the gripper/step state) or `step(image)` whose model reply carries the
raw `open_gripper` value `g` (lines 137-197). -/
inductive RemoteCmd where
  | reset : RemoteCmd
  | step : ℚ → RemoteCmd
deriving DecidableEq, Repr

/-- Mutable core state of `OctoServerInference`: the sticky-gripper fields
plus the `time_step` counter. -/
structure RemoteCoreState where
  gripper : GripperState
  time_step : ℕ
deriving DecidableEq, Repr

/-- Core state established by `OctoServerInference.__init__` (lines 88-96). -/
def remoteInitCore : RemoteCoreState :=
  { gripper := initGripperState, time_step := 0 }

/-- Effect of `OctoServerInference.reset` (lines 105-113) on the core state:
every mutable core field is overwritten with its construction-time value. -/
def remoteResetCore (_ : RemoteCoreState) : RemoteCoreState :=
  { gripper := initGripperState, time_step := 0 }

/-- State effect of one `OctoServerInference.step` under the `google_robot`
policy, with `g` the raw `open_gripper` value decoded from the server reply. -/
def remoteStepCore (numRepeat : ℕ) (s : RemoteCoreState) (g : ℚ) : RemoteCoreState :=
  { gripper := (gripperStep numRepeat s.gripper g).1, time_step := s.time_step + 1 }

/-- Run a sequence of `reset`/`step` calls on the remote adapter. -/
def execRemote (numRepeat : ℕ) (s : RemoteCoreState) : List RemoteCmd → RemoteCoreState
  | [] => s
  | RemoteCmd.reset :: cs => execRemote numRepeat (remoteResetCore s) cs
  | RemoteCmd.step g :: cs => execRemote numRepeat (remoteStepCore numRepeat s g) cs

/-! ## Observation history (`octo_model.py`, lines 82-88, 98-109, 116-119)

The local adapter keeps `image_history = deque(maxlen=horizon)` and a
saturating counter `num_image_history`.  A Python deque with `maxlen`
discards elements from the left when an append would exceed the capacity. -/

/-- The last `n` elements of a list (all of it when it is shorter). -/
def lastN {α : Type} (n : ℕ) (l : List α) : List α :=
  l.drop (l.length - n)

/-- `deque(maxlen).append(x)`: append on the right, discarding from the left
whatever exceeds the capacity. -/
def dequeAppend {α : Type} (maxlen : ℕ) (l : List α) (x : α) : List α :=
  let l2 := l ++ [x]
  l2.drop (l2.length - maxlen)

/-- `deque(maxlen).extend(xs)`: append each element of `xs` in turn. -/
def dequeExtend {α : Type} (maxlen : ℕ) (l : List α) (xs : List α) : List α :=
  xs.foldl (dequeAppend maxlen) l

/-- The mutable history fields of `OctoInference`: `image_history` (oldest
first) and `num_image_history`. -/
structure ObsHistory (α : Type) where
  image_history : List α
  num_image_history : ℕ
deriving DecidableEq, Repr

/-- History state after `__init__` (lines 83, 88) or `reset` (lines 116, 119):
an empty deque and a zero counter. -/
def initHistory {α : Type} : ObsHistory α :=
  { image_history := [], num_image_history := 0 }

/-- `OctoInference._add_image_to_history` (lines 98-103): on the first push
after a reset the frame is replicated `horizon` times via `extend`, otherwise
it is appended; the counter increments, saturating at `horizon`. -/
def addImage {α : Type} (horizon : ℕ) (s : ObsHistory α) (img : α) : ObsHistory α :=
  { image_history :=
      if s.num_image_history = 0 then
        dequeExtend horizon s.image_history (List.replicate horizon img)
      else
        dequeAppend horizon s.image_history img
    num_image_history := min (s.num_image_history + 1) horizon }

/-- Push a whole sequence of frames, one `step` at a time. -/
def pushAll {α : Type} (horizon : ℕ) (s : ObsHistory α) (l : List α) : ObsHistory α :=
  l.foldl (addImage horizon) s

/-- `OctoInference._obtain_image_history_and_mask` (lines 105-109): the mask
is `np.ones(horizon)` with its first `horizon - num_image_history` entries
zeroed.  (The stacked image window itself is the `image_history` list.) -/
def obtainMask (horizon num : ℕ) : List Bool :=
  List.replicate (horizon - num) false ++ List.replicate (horizon - (horizon - num)) true

/-! ## De-normalization and final-action assembly (`octo_model.py`, lines 160-185) -/

/-- Line 166: `raw_actions = norm_raw_actions * action_std + action_mean`,
elementwise over the 7 action dimensions. -/
def denormalize (norm std mean : List ℚ) : List ℚ :=
  List.zipWith (fun a b => a + b) (List.zipWith (fun a b => a * b) norm std) mean

/-- Lines 168 and 175: `world_vector = raw_actions[:3]` scaled by
`action_scale`. -/
def finalWorldVector (raw : List ℚ) (scale : ℚ) : List ℚ :=
  (raw.take 3).map (fun x => x * scale)

/-- Lines 182-185 of the local adapter: binarize `open_gripper` at the 0.5
threshold into `2.0 * (open_gripper > 0.5) - 1.0`, then negate the result
under the `google_robot` policy. -/
def gripperActionLocal (policy_setup : String) (open_gripper : ℚ) : ℚ :=
  let g : ℚ := 2 * (if (1 : ℚ)/2 < open_gripper then 1 else 0) - 1
  if policy_setup = "google_robot" then -g else g

/-! ## Construction-time configuration (`octo_model.py` lines 27-72,
`octo_server_model.py` lines 79-91) -/

/-- Hard-coded `bridge_dataset` statistics for custom checkpoints
(lines 61-63). -/
def bridgeCustomMean : List ℚ :=
  [0.00021161, 0.00012614, -0.00017022, -0.00015062, -0.00023831, 0.00025646, 0.0]

/-- Hard-coded `bridge_dataset` standard deviations (lines 64-66). -/
def bridgeCustomStd : List ℚ :=
  [0.00963721, 0.0135066, 0.01251861, 0.02806791, 0.03016905, 0.07632624, 1.0]

/-- Hard-coded `fractal20220817_data` statistics (line 68). -/
def fractalCustomMean : List ℚ :=
  [0.00696389, 0.00627008, -0.01263256, 0.04330839, -0.00570499, 0.00089247, 0.0]

/-- Hard-coded `fractal20220817_data` standard deviations (line 69). -/
def fractalCustomStd : List ℚ :=
  [0.06925472, 0.06019009, 0.07354742, 0.15605888, 0.1316399, 0.14593437, 1.0]

/-- Outcome of the `policy_setup` dispatch in `OctoInference.__init__`
(lines 28-38): the dataset id and whether action ensembling is enabled, or
the `NotImplementedError` message. -/
def localPolicyConfig (policy_setup : String) : Except String (String × Bool) :=
  if policy_setup = "widowx_bridge" then
    Except.ok ("bridge_dataset", true)
  else if policy_setup = "google_robot" then
    Except.ok ("fractal20220817_data", false)
  else
    Except.error ("Policy setup " ++ policy_setup ++ " not supported for octo models.")

/-- The statistics lookup of the custom-checkpoint branch of
`OctoInference.__init__` (lines 60-71): mean and std for the two known
dataset ids, a `NotImplementedError` otherwise. -/
def customModelStats (dataset_id : String) : Except String (List ℚ × List ℚ) :=
  if dataset_id = "bridge_dataset" then
    Except.ok (bridgeCustomMean, bridgeCustomStd)
  else if dataset_id = "fractal20220817_data" then
    Except.ok (fractalCustomMean, fractalCustomStd)
  else
    Except.error (dataset_id ++ " not supported yet for custom octo model checkpoints.")

/-- Configuration produced when `OctoInference.__init__` completes. -/
structure OctoConfig where
  dataset_id : String
  action_ensemble : Bool
  action_mean : List ℚ
  action_std : List ℚ
deriving DecidableEq, Repr

/-- `OctoInference.__init__` (lines 27-72), with the released-model dataset
statistics lookup (`self.model.dataset_statistics`, an external pretrained
model artifact) abstracted as the function `releasedStats`.  An `error`
value models a raised exception: construction does not complete and no
adapter object is produced. -/
def octoInferenceInit (releasedStats : String → List ℚ × List ℚ)
    (model_type policy_setup : String) : Except String OctoConfig := do
  let pc ← localPolicyConfig policy_setup
  let stats ←
    if model_type = "octo-base" ∨ model_type = "octo-small" then
      Except.ok (releasedStats pc.1)
    else
      customModelStats pc.1
  Except.ok { dataset_id := pc.1, action_ensemble := pc.2,
              action_mean := stats.1, action_std := stats.2 }

/-- `OctoServerInference.__init__` (lines 79-85): the `widowx_bridge` branch
unconditionally raises `NotImplementedError` (line 81), `google_robot` sets
`sticky_gripper_num_repeat = 15`, anything else raises.  The returned value
is the configured `sticky_gripper_num_repeat`. -/
def octoServerInferenceInit (policy_setup : String) : Except String ℕ :=
  if policy_setup = "widowx_bridge" then
    Except.error "Action normalization might be wrong, TODO"
  else if policy_setup = "google_robot" then
    Except.ok 15
  else
    Except.error ("Policy setup " ++ policy_setup ++ " not supported for octo models.")

/-- True when construction raised instead of completing. -/
def isConfigError {β : Type} : Except String β → Bool
  | Except.error _ => true
  | Except.ok _ => false

/-! ## Action-chunk shape handling in `OctoInference.step` (lines 145-160) -/

/-- Line 158 (custom-checkpoint branch): `[:, :, :7]` keeps at most the
first 7 entries of the action dimension of the queried chunk.  A shape is
`(rows, cols)` of the unbatched chunk. -/
def customModelSliceShape (s : ℕ × ℕ) : ℕ × ℕ :=
  (s.1, min s.2 7)

/-- Line 160: `assert norm_raw_actions.shape == (self.pred_action_horizon, 7)`.
Returns `true` when the assertion passes. -/
def actionShapeAssertPasses (pred : ℕ) (s : ℕ × ℕ) : Bool :=
  s = (pred, 7)

/-- Released-model branch (lines 140-145): the queried chunk reaches the
line-160 assertion unchanged, so the step fails loudly exactly when the
assertion fails on the chunk's own shape. -/
def releasedBranchFailsLoudly (pred : ℕ) (s : ℕ × ℕ) : Bool :=
  !actionShapeAssertPasses pred s

/-- Custom-checkpoint branch (lines 146-160): the chunk is sliced by
`[:, :, :7]` before the assertion, so the step fails loudly exactly when the
assertion fails on the sliced shape. -/
def customBranchFailsLoudly (pred : ℕ) (s : ℕ × ℕ) : Bool :=
  !actionShapeAssertPasses pred (customModelSliceShape s)

/-! ## Local adapter mutable core state (`octo_model.py`, lines 82-89, 111-120) -/

/-- A call made on the local adapter: `reset(task_description)` or
`step(image)` whose model query returns the normalized chunk `chunk`. -/
inductive LocalCmd (α : Type) where
  | reset : LocalCmd α
  | step : α → List ℚ → LocalCmd α

/-- Mutable core state of `OctoInference`: the observation history and its
counter, the ensemble buffer, and the `time_step` counter. -/
structure LocalCoreState (α : Type) where
  image_history : List α
  num_image_history : ℕ
  ensembler_buffer : List (List ℚ)
  time_step : ℕ
deriving DecidableEq, Repr

/-- Core state established by `OctoInference.__init__` (lines 82-89): empty
history, zero counter, a freshly constructed (empty) ensembler when
ensembling is enabled, zero step counter. -/
def localInitCore {α : Type} : LocalCoreState α :=
  { image_history := [], num_image_history := 0, ensembler_buffer := [], time_step := 0 }

/-- Effect of `OctoInference.reset` (lines 111-120) on the core state:
`image_history.clear()`, `action_ensembler.reset()` when ensembling is
enabled (when it is disabled no ensembler exists and its buffer field is
untouched), `num_image_history = 0`, `time_step = 0`. -/
def localResetCore {α : Type} (ensemble : Bool) (s : LocalCoreState α) : LocalCoreState α :=
  { image_history := [], num_image_history := 0,
    ensembler_buffer := if ensemble then [] else s.ensembler_buffer,
    time_step := 0 }

/-- Modelled from the spec: `ActionEnsembler.ensemble_action`'s buffer update
(`real2sim/utils/action/action_ensemble.py` is not among the source files;
spec section 4.2 / EnsembleBuffer: a bounded queue of at most
`pred_action_horizon` most-recent chunks, oldest evicted on overflow). -/
def ensembleBufferAdd (cap : ℕ) (buf : List (List ℚ)) (chunk : List ℚ) : List (List ℚ) :=
  let b := buf ++ [chunk]
  b.drop (b.length - cap)

/-- State effect of one `OctoInference.step` (lines 122-200): push the frame
into the history, feed the chunk to the ensembler when ensembling is
enabled, increment `time_step`. -/
def localStepCore {α : Type} (horizon cap : ℕ) (ensemble : Bool)
    (s : LocalCoreState α) (img : α) (chunk : List ℚ) : LocalCoreState α :=
  { image_history :=
      (addImage horizon ⟨s.image_history, s.num_image_history⟩ img).image_history
    num_image_history :=
      (addImage horizon ⟨s.image_history, s.num_image_history⟩ img).num_image_history
    ensembler_buffer :=
      if ensemble then ensembleBufferAdd cap s.ensembler_buffer chunk else s.ensembler_buffer
    time_step := s.time_step + 1 }

/-- Run a sequence of `reset`/`step` calls on the local adapter. -/
def execLocal {α : Type} (horizon cap : ℕ) (ensemble : Bool)
    (s : LocalCoreState α) : List (LocalCmd α) → LocalCoreState α
  | [] => s
  | LocalCmd.reset :: cs => execLocal horizon cap ensemble (localResetCore ensemble s) cs
  | LocalCmd.step img chunk :: cs =>
      execLocal horizon cap ensemble (localStepCore horizon cap ensemble s img chunk) cs

set_option maxRecDepth 8000

/-- One `step` of the `google_robot` remote adapter preserves the sticky
gripper invariant. -/
theorem gripperInvariant_step (s : GripperState) (c : ℚ)
    (h : gripperInvariantHolds s = true) :
    gripperInvariantHolds (gripperStep 15 s c).1 = true := by
  obtain ⟨sticky, r, a, p⟩ := s
  cases sticky with
  | false =>
      simp only [gripperInvariantHolds, if_neg, Bool.false_eq_true, if_false,
        Bool.and_eq_true, beq_iff_eq] at h
      obtain ⟨hr, ha⟩ := h
      subst hr
      subst ha
      simp only [gripperStep, gripperInvariantHolds]
      split_ifs <;>
        simp_all [Bool.and_eq_true, decide_eq_true_eq]
  | true =>
      simp only [gripperInvariantHolds, if_pos, Bool.and_eq_true, decide_eq_true_eq] at h
      obtain ⟨⟨h1, h2⟩, h3⟩ := h
      simp only [gripperStep, gripperInvariantHolds]
      split_ifs <;>
        simp_all [Bool.and_eq_true, decide_eq_true_eq] <;>
        omega

/-- The sticky gripper invariant holds after construction and is preserved
by every `reset` and every `step` of the remote `google_robot` adapter. -/
theorem gripperInvariant_exec (cmds : List RemoteCmd) (s : RemoteCoreState)
    (h : gripperInvariantHolds s.gripper = true) :
    gripperInvariantHolds (execRemote 15 s cmds).gripper = true := by
  induction cmds generalizing s with
  | nil => exact h
  | cons c cs ih =>
      cases c with
      | reset => exact ih _ (by simp [remoteResetCore, initGripperState, gripperInvariantHolds])
      | step g => exact ih _ (gripperInvariant_step _ _ h)

/-- C10: in every state of the remote `google_robot` adapter reachable from
construction by any sequence of `reset` and `step` calls, a non-sticky state
has zero repeat count and zero held action, and a sticky state has repeat
count between 1 and `sticky_gripper_num_repeat - 1 = 14` with a held action
of magnitude above 0.5. -/
theorem stickyStateInvariant (cmds : List RemoteCmd) :
    gripperInvariantHolds (execRemote 15 remoteInitCore cmds).gripper = true :=
  gripperInvariant_exec cmds remoteInitCore
    (by simp [remoteInitCore, initGripperState, gripperInvariantHolds])

/-- Once the filter has returned to idle with `previous_gripper_action`
pinned at a constant input, further constant inputs leave the state fixed. -/
theorem singleTrigger_tail (m : ℕ) :
    gripperStateAt 15 singleTriggerInput (16 + m) =
      { sticky_action_is_on := false, gripper_action_repeat := 0,
        sticky_gripper_action := 0, previous_gripper_action := some (2/5) } := by
  induction m with
  | zero =>
      norm_num [gripperStateAt, gripperStep, relativeOf, singleTriggerInput,
        initGripperState, abs_of_nonneg, abs_of_nonpos]
  | succ m ih =>
      have h1 : 16 + (m + 1) = (16 + m) + 1 := rfl
      rw [h1]
      simp only [gripperStateAt]
      rw [ih]
      have h2 : singleTriggerInput (16 + m) = 2/5 := by
        simp [singleTriggerInput]
      rw [h2]
      norm_num [gripperStep, relativeOf, abs_of_nonneg, abs_of_nonpos]

/-- Same idle-tail fact for the double-trigger input stream. -/
theorem doubleTrigger_tail (m : ℕ) :
    gripperStateAt 15 doubleTriggerInput (16 + m) =
      { sticky_action_is_on := false, gripper_action_repeat := 0,
        sticky_gripper_action := 0, previous_gripper_action := some (-(3/10)) } := by
  induction m with
  | zero =>
      norm_num [gripperStateAt, gripperStep, relativeOf, doubleTriggerInput,
        initGripperState, abs_of_nonneg, abs_of_nonpos]
  | succ m ih =>
      have h1 : 16 + (m + 1) = (16 + m) + 1 := rfl
      rw [h1]
      simp only [gripperStateAt]
      rw [ih]
      have h2 : doubleTriggerInput (16 + m) = -(3/10) := by
        simp only [doubleTriggerInput]
        rw [if_neg (by omega), if_neg (by omega)]
      rw [h2]
      norm_num [gripperStep, relativeOf, abs_of_nonneg, abs_of_nonpos]

/-- C1, counterexample to the claim as stated: on `singleTriggerInput` the
triggering step is step 1 (relative action 3/5 = 0.6), yet the 15th step
after it (step 16) already emits the raw zero value again, not the latched
0.6, so the hold does not last `sticky_gripper_num_repeat = 15` steps
beyond the trigger. -/
theorem stickyHoldOffByOne_counterexample :
    gripperOutputAt 15 singleTriggerInput 1 = 3/5 ∧
    gripperOutputAt 15 singleTriggerInput 16 = 0 ∧ (0 : ℚ) ≠ 3/5 := by
  refine ⟨?_, ?_, by norm_num⟩
  · norm_num [gripperOutputAt, gripperStateAt, gripperStep, relativeOf,
      singleTriggerInput, initGripperState, abs_of_nonneg, abs_of_nonpos]
  · norm_num [gripperOutputAt, gripperStateAt, gripperStep, relativeOf,
      singleTriggerInput, initGripperState, abs_of_nonneg, abs_of_nonpos]

/-- C1, amended: on `singleTriggerInput` the emitted gripper value is the
latched 3/5 on the triggering step (step 1) and on exactly the following
`sticky_gripper_num_repeat - 1 = 14` steps (15 emissions in total), and on
every later step the raw zero relative action is emitted again. -/
theorem stickyHoldSingleTrigger :
    gripperOutputAt 15 singleTriggerInput 0 = 0 ∧
    ∀ k : ℕ, gripperOutputAt 15 singleTriggerInput (1 + k) =
      if k < 15 then 3/5 else 0 := by
  constructor
  · norm_num [gripperOutputAt, gripperStateAt, gripperStep, relativeOf,
      singleTriggerInput, initGripperState, abs_of_nonneg, abs_of_nonpos]
  · intro k
    by_cases hk : k < 15
    · rw [if_pos hk]
      interval_cases k <;>
        norm_num [gripperOutputAt, gripperStateAt, gripperStep, relativeOf,
          singleTriggerInput, initGripperState, abs_of_nonneg, abs_of_nonpos]
    · rw [if_neg hk]
      have h1 : 1 + k = 16 + (k - 15) := by omega
      rw [h1]
      simp only [gripperOutputAt]
      rw [singleTrigger_tail]
      have h2 : singleTriggerInput (16 + (k - 15)) = 2/5 := by
        simp [singleTriggerInput]
      rw [h2]
      norm_num [gripperStep, relativeOf, abs_of_nonneg, abs_of_nonpos]

/-- C2, counterexample to the claim as stated: on `doubleTriggerInput` a
second above-threshold relative action of 7/10 arrives at step 6, five
steps after the first trigger at step 1; the emitted value at step 6 is
still the first latched 3/5 (not 7/10, so the hold is not restarted with
the new value), and step 16 already emits the raw zero (a hold extended or
restarted at step 6 would still be emitting a latched value until step 20),
so the transition back to idle is determined by the first trigger alone. -/
theorem stickySecondTrigger_counterexample :
    gripperOutputAt 15 doubleTriggerInput 6 = 3/5 ∧
    gripperOutputAt 15 doubleTriggerInput 16 = 0 ∧
    gripperOutputAt 15 doubleTriggerInput 20 = 0 ∧
    (3 : ℚ)/5 ≠ 7/10 ∧ (0 : ℚ) ≠ 3/5 ∧ (0 : ℚ) ≠ 7/10 := by
  refine ⟨?_, ?_, ?_, by norm_num, by norm_num, by norm_num⟩ <;>
    norm_num [gripperOutputAt, gripperStateAt, gripperStep, relativeOf,
      doubleTriggerInput, initGripperState, abs_of_nonneg, abs_of_nonpos]

/-- C2, amended: a second trigger event arriving while the filter is sticky
is ignored: on `doubleTriggerInput` (triggers at steps 1 and 6) every step
from 1 through 15 emits the first latched value 3/5, and every step from 16
on emits the raw zero relative action, exactly as determined by the first
trigger alone. -/
theorem stickySecondTriggerIgnored :
    ∀ k : ℕ, gripperOutputAt 15 doubleTriggerInput k =
      if k = 0 then 0 else if k ≤ 15 then 3/5 else 0 := by
  intro k
  by_cases h0 : k = 0
  · subst h0
    norm_num [gripperOutputAt, gripperStateAt, gripperStep, relativeOf,
      doubleTriggerInput, initGripperState, abs_of_nonneg, abs_of_nonpos]
  · rw [if_neg h0]
    by_cases hk : k ≤ 15
    · rw [if_pos hk]
      interval_cases k <;>
        first
        | exact absurd rfl h0
        | norm_num [gripperOutputAt, gripperStateAt, gripperStep, relativeOf,
            doubleTriggerInput, initGripperState, abs_of_nonneg, abs_of_nonpos]
    · rw [if_neg hk]
      have h1 : k = 16 + (k - 16) := by omega
      rw [h1]
      simp only [gripperOutputAt]
      rw [doubleTrigger_tail]
      have h2 : doubleTriggerInput (16 + (k - 16)) = -(3/10) := by
        simp only [doubleTriggerInput]
        rw [if_neg (by omega), if_neg (by omega)]
      rw [h2]
      norm_num [gripperStep, relativeOf, abs_of_nonneg, abs_of_nonpos]

/-! ## Observation history lemmas and claims C3, C4 -/

theorem lastN_all {α : Type} (n : ℕ) (l : List α) (h : l.length ≤ n) : lastN n l = l := by
  simp [lastN, Nat.sub_eq_zero_of_le h]

theorem dequeAppend_eq_lastN {α : Type} (maxlen : ℕ) (l : List α) (x : α) :
    dequeAppend maxlen l x = lastN maxlen (l ++ [x]) := rfl

theorem lastN_append_singleton {α : Type} (maxlen : ℕ) (m : List α) (x : α) :
    lastN maxlen (lastN maxlen m ++ [x]) = lastN maxlen (m ++ [x]) := by
  simp only [lastN, List.length_append, List.length_drop, List.length_singleton]
  rw [← List.drop_append_of_le_length (by omega)]
  rw [List.drop_drop]
  congr 1
  omega

theorem dequeExtend_nil {α : Type} (maxlen : ℕ) (xs : List α) :
    dequeExtend maxlen [] xs = lastN maxlen xs := by
  induction xs using List.reverseRecOn with
  | nil => simp [dequeExtend, lastN]
  | append_singleton xs x ih =>
      simp only [dequeExtend] at ih ⊢
      rw [List.foldl_append]
      simp only [List.foldl_cons, List.foldl_nil]
      rw [ih, dequeAppend_eq_lastN, lastN_append_singleton]

theorem pushAll_spec {α : Type} (horizon : ℕ) (hh : 0 < horizon) (f : α) (l : List α) :
    pushAll horizon initHistory (f :: l) =
      { image_history := lastN horizon (List.replicate horizon f ++ l)
        num_image_history := min (l.length + 1) horizon } := by
  induction l using List.reverseRecOn with
  | nil =>
      simp only [pushAll, List.foldl_cons, List.foldl_nil, addImage, initHistory]
      rw [if_pos trivial, dequeExtend_nil]
      simp only [List.append_nil, List.length_nil]
  | append_singleton l x ih =>
      have hcons : f :: (l ++ [x]) = (f :: l) ++ [x] := by simp
      rw [hcons]
      simp only [pushAll] at ih ⊢
      rw [List.foldl_append, ih]
      simp only [List.foldl_cons, List.foldl_nil, addImage]
      rw [if_neg (by omega)]
      rw [dequeAppend_eq_lastN, lastN_append_singleton]
      simp only [ObsHistory.mk.injEq]
      constructor
      · rw [List.append_assoc]
      · simp only [List.length_append, List.length_singleton]
        omega

theorem lastN_replicate_append {α : Type} (h : ℕ) (f : α) (l : List α)
    (hle : h ≤ l.length + 1) (hpos : 0 < h) :
    lastN h (List.replicate h f ++ l) = (f :: l).drop (l.length + 1 - h) := by
  rcases Nat.lt_or_ge l.length h with hc | hc
  · have h1 : l.length + 1 - h = 0 := by omega
    rw [h1, List.drop_zero]
    simp only [lastN, List.length_append, List.length_replicate]
    have h2 : h + l.length - h = l.length := by omega
    rw [h2]
    rw [List.drop_append_of_le_length (by simp; omega)]
    rw [List.drop_replicate]
    have h3 : h - l.length = 1 := by omega
    rw [h3]
    simp
  · simp only [lastN, List.length_append, List.length_replicate]
    have h2 : h + l.length - h = l.length := by omega
    rw [h2]
    have key : (List.replicate h f ++ l).drop l.length = l.drop (l.length - h) := by
      have hd := @List.drop_append α (List.replicate h f) l (l.length - h)
      have h3 : (List.replicate h f).length + (l.length - h) = l.length := by
        simp only [List.length_replicate]
        omega
      rw [h3] at hd
      exact hd
    rw [key]
    have h4 : l.length + 1 - h = (l.length - h) + 1 := by omega
    rw [h4, List.drop_succ_cons]

/-- C3: after exactly one push following a reset, the observation window is
`horizon` copies of the pushed (resized) frame and the padding mask is
all-false except its last entry, which is true. -/
theorem historySinglePushWindow {α : Type} (img : α) (horizon : ℕ) (hh : 0 < horizon) :
    (addImage horizon (initHistory : ObsHistory α) img).image_history =
      List.replicate horizon img ∧
    obtainMask horizon (addImage horizon (initHistory : ObsHistory α) img).num_image_history =
      List.replicate (horizon - 1) false ++ [true] := by
  have h1 := pushAll_spec horizon hh img ([] : List α)
  simp only [pushAll, List.foldl_cons, List.foldl_nil, List.length_nil, List.append_nil] at h1
  rw [h1]
  constructor
  · exact lastN_all horizon _ (by simp)
  · simp only [obtainMask]
    have h2 : min (0 + 1) horizon = 1 := by omega
    rw [h2]
    have h3 : horizon - (horizon - 1) = 1 := by omega
    rw [h3]
    rfl

/-- C4: after `n ≥ 1` pushes since reset, the padding mask has exactly
`horizon` entries, its leading `horizon - min n horizon` entries false and
its trailing `min n horizon` entries true; once `n ≥ horizon` the mask is
all-true for every later step and the window equals the last `horizon`
pushed frames in order. -/
theorem historyMaskWindowAfterPushes {α : Type} (horizon : ℕ) (l : List α)
    (hh : 0 < horizon) (hl : l ≠ []) :
    (obtainMask horizon (pushAll horizon initHistory l).num_image_history).length = horizon ∧
    obtainMask horizon (pushAll horizon initHistory l).num_image_history =
      List.replicate (horizon - min l.length horizon) false ++
        List.replicate (min l.length horizon) true ∧
    (horizon ≤ l.length →
      obtainMask horizon (pushAll horizon initHistory l).num_image_history =
        List.replicate horizon true ∧
      (pushAll horizon initHistory l).image_history = l.drop (l.length - horizon)) := by
  obtain ⟨f, l', rfl⟩ : ∃ f l', l = f :: l' := by
    cases l with
    | nil => exact absurd rfl hl
    | cons a as => exact ⟨a, as, rfl⟩
  rw [pushAll_spec horizon hh f l']
  simp only [List.length_cons]
  refine ⟨?_, ?_, ?_⟩
  · simp only [obtainMask, List.length_append, List.length_replicate]
    omega
  · simp only [obtainMask]
    have h3 : horizon - (horizon - min (l'.length + 1) horizon) =
        min (l'.length + 1) horizon := by omega
    rw [h3]
  · intro hge
    constructor
    · simp only [obtainMask]
      have h4 : horizon - min (l'.length + 1) horizon = 0 := by omega
      rw [h4]
      simp
    · exact lastN_replicate_append horizon f l' (by omega) hh

/-- Witness for C3 at `horizon = 2`, frame `7`. -/
theorem historySinglePushWindow_witness :
    0 < 2 ∧
    ((addImage 2 (initHistory : ObsHistory ℕ) 7).image_history = List.replicate 2 7 ∧
     obtainMask 2 (addImage 2 (initHistory : ObsHistory ℕ) 7).num_image_history =
       List.replicate 1 false ++ [true]) :=
  ⟨by decide, historySinglePushWindow 7 2 (by decide)⟩

/-- Witness for C4 at `horizon = 2`, pushes `[1, 2, 3]`. -/
theorem historyMaskWindowAfterPushes_witness :
    0 < 2 ∧ ([1, 2, 3] : List ℕ) ≠ [] ∧
    ((obtainMask 2 (pushAll 2 initHistory [1, 2, 3]).num_image_history).length = 2 ∧
     obtainMask 2 (pushAll 2 initHistory [1, 2, 3]).num_image_history =
       List.replicate (2 - min ([1, 2, 3] : List ℕ).length 2) false ++
         List.replicate (min ([1, 2, 3] : List ℕ).length 2) true ∧
     (2 ≤ ([1, 2, 3] : List ℕ).length →
       obtainMask 2 (pushAll 2 initHistory [1, 2, 3]).num_image_history =
         List.replicate 2 true ∧
       (pushAll 2 initHistory [1, 2, 3]).image_history =
         ([1, 2, 3] : List ℕ).drop (([1, 2, 3] : List ℕ).length - 2))) :=
  ⟨by decide, by decide, historyMaskWindowAfterPushes 2 [1, 2, 3] (by decide) (by decide)⟩

/-! ## De-normalization, binarization, configuration and shape claims C5, C6, C7, C9 -/

/-- Elementwise description of line 166's broadcasted affine map. -/
theorem denormalize_getD (norm std mean : List ℚ) (i : ℕ)
    (h1 : i < norm.length) (h2 : i < std.length) (h3 : i < mean.length) :
    (denormalize norm std mean).getD i 0 =
      norm.getD i 0 * std.getD i 0 + mean.getD i 0 := by
  induction norm generalizing std mean i with
  | nil => simp at h1
  | cons a as ih =>
      cases std with
      | nil => simp at h2
      | cons b bs =>
          cases mean with
          | nil => simp at h3
          | cons c cs =>
              cases i with
              | zero => simp [denormalize]
              | succ i =>
                  simp only [denormalize, List.zipWith_cons_cons, List.getD_cons_succ]
                  exact ih bs cs i (by simpa using h1) (by simpa using h2)
                    (by simpa using h3)

/-- De-normalizing the all-zero normalized action returns the mean. -/
theorem denormalize_zero (std mean : List ℚ) (h : std.length = mean.length) :
    denormalize (List.replicate std.length 0) std mean = mean := by
  induction std generalizing mean with
  | nil =>
      cases mean with
      | nil => rfl
      | cons b bs => simp at h
  | cons a as ih =>
      cases mean with
      | nil => simp at h
      | cons b bs =>
          simp only [List.length_cons, List.replicate_succ, denormalize,
            List.zipWith_cons_cons, List.cons.injEq]
          refine ⟨by ring, ?_⟩
          have := ih bs (by simpa using h)
          simpa [denormalize] using this

/-- C5: the local adapter's de-normalization computes
`raw = normalized * action_std + action_mean` elementwise; for an all-zero
normalized action the raw action equals `action_mean` exactly and the final
`world_vector` equals `action_mean[:3] * action_scale`. -/
theorem denormalizationAffine (norm std mean : List ℚ) (scale : ℚ) (i : ℕ)
    (hn : norm.length = 7) (hs : std.length = 7) (hm : mean.length = 7) (hi : i < 7) :
    (denormalize norm std mean).getD i 0 =
      norm.getD i 0 * std.getD i 0 + mean.getD i 0 ∧
    denormalize (List.replicate 7 0) std mean = mean ∧
    finalWorldVector (denormalize (List.replicate 7 0) std mean) scale =
      (mean.take 3).map (fun x => x * scale) := by
  have hz : denormalize (List.replicate 7 0) std mean = mean := by
    have h0 := denormalize_zero std mean (by omega)
    rw [hs] at h0
    exact h0
  refine ⟨denormalize_getD norm std mean i (by omega) (by omega) (by omega), hz, ?_⟩
  rw [hz]
  rfl

/-- Witness for C5 at the hard-coded bridge statistics, `scale = 2`, `i = 0`. -/
theorem denormalizationAffine_witness :
    (bridgeCustomMean.length = 7 ∧ bridgeCustomStd.length = 7 ∧ (0 : ℕ) < 7) ∧
    ((denormalize bridgeCustomMean bridgeCustomStd bridgeCustomMean).getD 0 0 =
        bridgeCustomMean.getD 0 0 * bridgeCustomStd.getD 0 0 + bridgeCustomMean.getD 0 0 ∧
     denormalize (List.replicate 7 0) bridgeCustomStd bridgeCustomMean = bridgeCustomMean ∧
     finalWorldVector (denormalize (List.replicate 7 0) bridgeCustomStd bridgeCustomMean) 2 =
       (bridgeCustomMean.take 3).map (fun x => x * 2)) :=
  ⟨⟨by decide, by decide, by decide⟩,
   denormalizationAffine bridgeCustomMean bridgeCustomStd bridgeCustomMean 2 0
     (by decide) (by decide) (by decide) (by decide)⟩

/-- C6: any de-normalized `open_gripper` above 0.5 yields the final gripper
action `+1` under `widowx_bridge` and `-1` under `google_robot`; any value
at or below 0.5 yields `-1` and `+1` respectively. -/
theorem gripperBinarization (v : ℚ) :
    ((1 : ℚ)/2 < v →
      gripperActionLocal "widowx_bridge" v = 1 ∧
      gripperActionLocal "google_robot" v = -1) ∧
    (v ≤ (1 : ℚ)/2 →
      gripperActionLocal "widowx_bridge" v = -1 ∧
      gripperActionLocal "google_robot" v = 1) := by
  constructor
  · intro h
    refine ⟨?_, ?_⟩
    · simp only [gripperActionLocal, if_pos h,
        if_neg (by decide : ¬("widowx_bridge" : String) = "google_robot")]
      norm_num
    · simp only [gripperActionLocal, if_pos h, if_pos rfl]
      norm_num
  · intro h
    refine ⟨?_, ?_⟩
    · simp only [gripperActionLocal, if_neg (not_lt.mpr h),
        if_neg (by decide : ¬("widowx_bridge" : String) = "google_robot")]
      norm_num
    · simp only [gripperActionLocal, if_neg (not_lt.mpr h), if_pos rfl]
      norm_num

/-- Witness for C6 at `open_gripper = 9/10`. -/
theorem gripperBinarization_witness :
    (1 : ℚ)/2 < 9/10 ∧
    (gripperActionLocal "widowx_bridge" (9/10) = 1 ∧
     gripperActionLocal "google_robot" (9/10) = -1) :=
  ⟨by norm_num, (gripperBinarization (9/10)).1 (by norm_num)⟩

/-- C7: construction of either adapter with a `policy_setup` outside
`{widowx_bridge, google_robot}` raises, the custom-checkpoint statistics
lookup raises for any other dataset id, and the remote adapter's
construction unconditionally raises for `widowx_bridge`; an error value
means construction does not complete and no adapter is produced. -/
theorem constructionConfigErrors (p d : String)
    (hp1 : p ≠ "widowx_bridge") (hp2 : p ≠ "google_robot")
    (hd1 : d ≠ "bridge_dataset") (hd2 : d ≠ "fractal20220817_data") :
    (∀ (releasedStats : String → List ℚ × List ℚ) (model_type : String),
        isConfigError (octoInferenceInit releasedStats model_type p) = true) ∧
    isConfigError (octoServerInferenceInit p) = true ∧
    isConfigError (customModelStats d) = true ∧
    isConfigError (octoServerInferenceInit "widowx_bridge") = true := by
  refine ⟨?_, ?_, ?_, ?_⟩
  · intro rs mt
    simp only [octoInferenceInit, localPolicyConfig, if_neg hp1, if_neg hp2]
    rfl
  · simp only [octoServerInferenceInit, if_neg hp1, if_neg hp2]
    rfl
  · simp only [customModelStats, if_neg hd1, if_neg hd2]
    rfl
  · rfl

/-- Witness for C7 at `policy_setup = "foo"`, `dataset_id = "bar"`. -/
theorem constructionConfigErrors_witness :
    (("foo" : String) ≠ "widowx_bridge" ∧ ("foo" : String) ≠ "google_robot" ∧
     ("bar" : String) ≠ "bridge_dataset" ∧ ("bar" : String) ≠ "fractal20220817_data") ∧
    ((∀ (rs : String → List ℚ × List ℚ) (mt : String),
        isConfigError (octoInferenceInit rs mt "foo") = true) ∧
     isConfigError (octoServerInferenceInit "foo") = true ∧
     isConfigError (customModelStats "bar") = true ∧
     isConfigError (octoServerInferenceInit "widowx_bridge") = true) :=
  ⟨⟨by decide, by decide, by decide, by decide⟩,
   constructionConfigErrors "foo" "bar" (by decide) (by decide) (by decide) (by decide)⟩

/-- C9, counterexample to the claim as stated: in the custom-checkpoint
branch a chunk of shape `(4, 10)` with `pred_action_horizon = 4` is sliced
to `(4, 7)` by line 158 before the line-160 assertion, so the step does not
fail loudly even though the queried dimensionality was not `(4, 7)` - the
extra action dimensions are silently truncated. -/
theorem customShapeTruncation_counterexample :
    customBranchFailsLoudly 4 (4, 10) = false ∧
    ((4, 10) : ℕ × ℕ) ≠ (4, 7) ∧
    customModelSliceShape (4, 10) = (4, 7) := by
  refine ⟨rfl, by decide, rfl⟩

/-- C9, amended: the released-model branch fails loudly exactly when the
chunk shape differs from `(pred_action_horizon, 7)`; the custom-checkpoint
branch fails loudly exactly when the row count differs from
`pred_action_horizon` or there are fewer than 7 action dimensions - a chunk
with more than 7 action dimensions is silently truncated to 7 and passes. -/
theorem shapeAssertExactness (pred : ℕ) (s : ℕ × ℕ) :
    (releasedBranchFailsLoudly pred s = true ↔ s ≠ (pred, 7)) ∧
    (customBranchFailsLoudly pred s = true ↔ ¬(s.1 = pred ∧ 7 ≤ s.2)) := by
  obtain ⟨r, c⟩ := s
  constructor
  · simp only [releasedBranchFailsLoudly, actionShapeAssertPasses,
      Bool.not_eq_true', decide_eq_false_iff_not, ne_eq, Prod.mk.injEq]
  · have hmin : min c 7 = 7 ↔ 7 ≤ c := by omega
    simp only [customBranchFailsLoudly, actionShapeAssertPasses, customModelSliceShape,
      Bool.not_eq_true', decide_eq_false_iff_not, Prod.mk.injEq, hmin]

/-! ## Reset / fresh-construction equivalence, claim C8 -/

/-- When ensembling is disabled no step touches the (nonexistent) ensemble
buffer, so it stays empty along any run. -/
theorem execLocal_buffer_no_ensemble {α : Type} (horizon cap : ℕ)
    (cs : List (LocalCmd α)) (s : LocalCoreState α) (hs : s.ensembler_buffer = []) :
    (execLocal horizon cap false s cs).ensembler_buffer = [] := by
  induction cs generalizing s with
  | nil => exact hs
  | cons c cs ih =>
      cases c with
      | reset => exact ih _ (by simp [localResetCore, hs])
      | step img chunk => exact ih _ (by simp [localStepCore, hs])

/-- C8: after any sequence of `reset` and `step` calls on either adapter,
calling `reset` leaves the mutable core state (observation history and its
counter, ensemble buffer, sticky-gripper state, step counter) equal to that
of a freshly constructed adapter. -/
theorem resetRestoresFreshState {α : Type} (horizon cap numRepeat : ℕ) (ensemble : Bool)
    (cmds : List (LocalCmd α)) (rcmds : List RemoteCmd) :
    localResetCore ensemble (execLocal horizon cap ensemble localInitCore cmds) =
      (localInitCore : LocalCoreState α) ∧
    remoteResetCore (execRemote numRepeat remoteInitCore rcmds) = remoteInitCore := by
  constructor
  · cases ensemble with
    | true => simp [localResetCore, localInitCore]
    | false =>
        have hb := @execLocal_buffer_no_ensemble α horizon cap cmds localInitCore rfl
        simp only [localResetCore]
        rw [if_neg (by decide), hb]
        rfl
  · rfl
